import Mathlib

/-!
Verification of the `wcr` word-count utility (src/lib.rs).

The input of the counting engine is modelled as the list of raw bytes of the
stream (`List Nat`, each entry `< 256`).  `BufRead::read_line` reads bytes up
to and including the next line feed (byte 10), validates the chunk as UTF-8
(failing with the error message "stream did not contain valid UTF-8"
otherwise) and appends it to the accumulation buffer; since a line feed is a
single-byte character and can never occur inside a multi-byte UTF-8 sequence,
per-chunk validation succeeds exactly when the whole byte stream is valid
UTF-8, so the engine is modelled by decoding the whole stream at once.
Decoded characters are modelled as code points (`Nat`).
-/

namespace Wcr

/-- The four-field result of the counting engine (struct `FileInfo`). -/
structure FileInfo where
  num_lines : Nat
  num_words : Nat
  num_bytes : Nat
  num_chars : Nat
deriving DecidableEq, Repr

/-- A UTF-8 continuation byte: `0x80 ..= 0xBF`. -/
def isCont (b : Nat) : Bool := 0x80 ≤ b && b ≤ 0xBF

/-- Admissible first continuation byte of a three-byte sequence with lead
byte `b` (Rust `core::str` validation: `E0` requires `A0..=BF`, `ED`
requires `80..=9F`, the rest `80..=BF`). -/
def cont3ok (b b1 : Nat) : Bool :=
  if b = 0xE0 then 0xA0 ≤ b1 && b1 ≤ 0xBF
  else if b = 0xED then 0x80 ≤ b1 && b1 ≤ 0x9F
  else isCont b1

/-- Admissible first continuation byte of a four-byte sequence with lead
byte `b` (`F0` requires `90..=BF`, `F4` requires `80..=8F`, the rest
`80..=BF`). -/
def cont4ok (b b1 : Nat) : Bool :=
  if b = 0xF0 then 0x90 ≤ b1 && b1 ≤ 0xBF
  else if b = 0xF4 then 0x80 ≤ b1 && b1 ≤ 0x8F
  else isCont b1

/-- Decode one UTF-8 character from the front of a byte list, returning its
code point and the remaining bytes, exactly the validation Rust performs
when `read_line` converts bytes to `String`: one-byte `00..=7F`; two-byte
lead `C2..=DF`; three-byte lead `E0..=EF` with `cont3ok`; four-byte lead
`F0..=F4` with `cont4ok`; continuation bytes `80..=BF`.  Returns `none` on
an empty list or a malformed sequence. -/
def utf8DecodeChar : List Nat → Option (Nat × List Nat)
  | [] => none
  | b :: bs =>
    if b < 0x80 then some (b, bs)
    else if b < 0xC2 then none
    else if b ≤ 0xDF then
      match bs with
      | b1 :: bs1 =>
        if isCont b1 then some ((b - 0xC0) * 0x40 + (b1 - 0x80), bs1) else none
      | [] => none
    else if b ≤ 0xEF then
      match bs with
      | b1 :: b2 :: bs2 =>
        if cont3ok b b1 && isCont b2 then
          some ((b - 0xE0) * 0x1000 + (b1 - 0x80) * 0x40 + (b2 - 0x80), bs2)
        else none
      | _ => none
    else if b ≤ 0xF4 then
      match bs with
      | b1 :: b2 :: b3 :: bs3 =>
        if cont4ok b b1 && isCont b2 && isCont b3 then
          some ((b - 0xF0) * 0x40000 + (b1 - 0x80) * 0x1000 +
            (b2 - 0x80) * 0x40 + (b3 - 0x80), bs3)
        else none
      | _ => none
    else none

/-- Iterate `utf8DecodeChar` until the byte list is exhausted.  The `fuel`
argument only makes the recursion structural: every step consumes at least
one byte, so any fuel of at least the list length gives the full
decoding. -/
def utf8DecodeLoop : Nat → List Nat → Option (List Nat)
  | _, [] => some []
  | 0, _ :: _ => none
  | fuel + 1, b :: bs =>
    match utf8DecodeChar (b :: bs) with
    | none => none
    | some (c, rest) => (utf8DecodeLoop fuel rest).map (fun cs => c :: cs)

/-- Strict UTF-8 decoding of a whole byte list into code points: `some`
exactly on the byte lists that Rust accepts as valid `String` content. -/
def utf8Decode (bs : List Nat) : Option (List Nat) := utf8DecodeLoop bs.length bs

/-- Rust `char::is_whitespace` on a code point: the Unicode `White_Space`
property, used by `str::split_whitespace`.  Note that it contains the
carriage return U+000D. -/
def isRustWhitespace (c : Nat) : Bool :=
  (9 ≤ c && c ≤ 13) || c = 0x20 || c = 0x85 || c = 0xA0 || c = 0x1680 ||
    (0x2000 ≤ c && c ≤ 0x200A) || c = 0x2028 || c = 0x2029 || c = 0x202F ||
    c = 0x205F || c = 0x3000

/-- Helper for `countWords`: scans the character list keeping track of
whether the previous character was inside a word, counting the maximal
non-whitespace runs. -/
def countWordsAux : List Nat → Bool → Nat
  | [], _ => 0
  | c :: cs, inWord =>
    if isRustWhitespace c then countWordsAux cs false
    else (if inWord then 0 else 1) + countWordsAux cs true

/-- `buffer.split_whitespace().count()`: the number of maximal
whitespace-delimited tokens of a character list. -/
def countWords (cs : List Nat) : Nat := countWordsAux cs false

/-- The segments read by the successive `read_line` calls: the byte stream
split after every line-feed byte (10), the terminator kept with its line,
the final segment possibly unterminated.  The empty stream yields no
segment (`read_line` returns 0 at once). -/
def streamLines : List Nat → List (List Nat)
  | [] => []
  | b :: bs =>
    if b = 10 then [10] :: streamLines bs
    else
      match streamLines bs with
      | [] => [[b]]
      | l :: ls => (b :: l) :: ls

/-- The counting engine (fn `count`).  `num_lines` is the number of
successful nonzero `read_line` reads; the accumulated buffer is the whole
byte stream; `num_words`, `num_bytes`, `num_chars` are derived from it.
Fails with the `read_line` decoding error on malformed UTF-8. -/
def count (stream : List Nat) : Except String FileInfo :=
  match utf8Decode stream with
  | none => .error "stream did not contain valid UTF-8"
  | some chars =>
    .ok
      { num_lines := (streamLines stream).length
        num_words := countWords chars
        num_bytes := stream.length
        num_chars := chars.length }

/-- The runtime configuration (struct `Config`). -/
structure Config where
  files : List String
  lines : Bool
  words : Bool
  bytes : Bool
  chars : Bool
deriving DecidableEq, Repr

/-- The flag-resolution part of `get_args` (lines 72-93 of src/lib.rs):
given the raw flag values returned by the argument parser and the file
list, build the `Config`.  When none of the four flags was given, `lines`,
`words` and `bytes` are forced on; `chars` is never modified. -/
def get_args (files : List String) (lines words bytes chars : Bool) : Config :=
  if !lines && !words && !bytes && !chars then
    { files := files, lines := true, words := true, bytes := true, chars := chars }
  else
    { files := files, lines := lines, words := words, bytes := bytes, chars := chars }

/-- `fn format_field`: the value right-aligned in a field of width 8 when
shown, the empty string otherwise. -/
def format_field (value : Nat) (shouldShow : Bool) : String :=
  if shouldShow then
    String.mk (List.replicate (8 - (Nat.repr value).length) ' ') ++ Nat.repr value
  else ""

/-- The per-source stdout line printed by `run` on a successful count:
the four formatted fields, then a space and the filename unless it is
`-`. -/
def sourceLine (config : Config) (file_info : FileInfo) (filename : String) : String :=
  format_field file_info.num_lines config.lines ++
    format_field file_info.num_words config.words ++
    format_field file_info.num_bytes config.bytes ++
    format_field file_info.num_chars config.chars ++
    (if filename = "-" then "" else " " ++ filename)

/-- The final total line printed by `run` when more than one file was
processed. -/
def totalLine (config : Config) (tl tw tb tc : Nat) : String :=
  format_field tl config.lines ++ format_field tw config.words ++
    format_field tb config.bytes ++ format_field tc config.chars ++ " total"

/-- The observable outcome of the `run` loop: the stdout lines, the stderr
lines, and the four running totals. -/
structure RunAcc where
  stdout : List String
  stderr : List String
  total_lines : Nat
  total_words : Nat
  total_bytes : Nat
  total_chars : Nat
deriving DecidableEq, Repr

/-- The `for filename in &config.files` loop of `fn run`.  The environment
`env` models `fn open`: it maps a source identifier to the byte stream it
opens (stdin for `-`, the file content otherwise), or to the error message
when opening fails.  An open failure or a `count` failure appends a
`"<filename>: <error>"` line to stderr and moves on; a success adds the
four counts to the running totals and appends the formatted source line to
stdout. -/
def runFiles (env : String → Except String (List Nat)) (config : Config) :
    List String → Nat → Nat → Nat → Nat → RunAcc
  | [], tl, tw, tb, tc =>
    { stdout := [], stderr := [], total_lines := tl, total_words := tw
      total_bytes := tb, total_chars := tc }
  | filename :: rest, tl, tw, tb, tc =>
    match env filename with
    | .error err =>
      let r := runFiles env config rest tl tw tb tc
      { r with stderr := (filename ++ ": " ++ err) :: r.stderr }
    | .ok stream =>
      match count stream with
      | .error e2 =>
        let r := runFiles env config rest tl tw tb tc
        { r with stderr := (filename ++ ": " ++ e2) :: r.stderr }
      | .ok file_info =>
        let r := runFiles env config rest (tl + file_info.num_lines)
          (tw + file_info.num_words) (tb + file_info.num_bytes)
          (tc + file_info.num_chars)
        { r with stdout := sourceLine config file_info filename :: r.stdout }

/-- `fn run`: process every file of the configuration in order, then, when
more than one file was iterated (`file_count > 1`, and `file_count` ends
equal to `config.files.length`), print the total line.  Returns the pair
(stdout lines, stderr lines). -/
def run (env : String → Except String (List Nat)) (config : Config) :
    List String × List String :=
  let r := runFiles env config config.files 0 0 0 0
  (r.stdout ++
      (if config.files.length > 1 then
        [totalLine config r.total_lines r.total_words r.total_bytes r.total_chars]
      else []),
    r.stderr)

/-- The outcome of one source, as the spec describes it: opening followed
by counting, either of which can fail. -/
def sourceResult (env : String → Except String (List Nat)) (filename : String) :
    Except String FileInfo :=
  match env filename with
  | .error err => .error err
  | .ok stream => count stream

/-- The Measurements of the successfully processed sources, in order
(spec: "successfully processed sources"). -/
def successInfos (env : String → Except String (List Nat)) (files : List String) :
    List FileInfo :=
  files.filterMap (fun f => (sourceResult env f).toOption)

/-- The per-source stdout lines a list of sources produces. -/
def perSourceOut (env : String → Except String (List Nat)) (config : Config)
    (files : List String) : List String :=
  files.filterMap
    (fun f => ((sourceResult env f).toOption).map (fun i => sourceLine config i f))

/-- The per-source stderr diagnostic lines a list of sources produces. -/
def perSourceErr (env : String → Except String (List Nat)) (files : List String) :
    List String :=
  files.filterMap
    (fun f =>
      match sourceResult env f with
      | .error e => some (f ++ ": " ++ e)
      | .ok _ => none)

/-- Field-wise sum of a list of Measurements (spec side of claim C3). -/
def sumInfos (infos : List FileInfo) : FileInfo :=
  { num_lines := (infos.map FileInfo.num_lines).sum
    num_words := (infos.map FileInfo.num_words).sum
    num_bytes := (infos.map FileInfo.num_bytes).sum
    num_chars := (infos.map FileInfo.num_chars).sum }

lemma utf8DecodeChar_cons (b : Nat) (bs : List Nat) (c : Nat) (rest : List Nat)
    (h : utf8DecodeChar (b :: bs) = some (c, rest)) :
    (b < 128 ∧ c = b ∧ rest = bs) ∨ (128 ≤ b ∧ rest.length + 2 ≤ bs.length + 1) := by
  by_cases h1 : b < 128
  · left
    simp [utf8DecodeChar, h1] at h
    exact ⟨h1, h.1.symm, h.2.symm⟩
  · right
    refine ⟨by omega, ?_⟩
    by_cases h2 : b < 194
    · simp [utf8DecodeChar, h1, h2] at h
    · by_cases h3 : b ≤ 223
      · rcases bs with _ | ⟨b1, bs1⟩
        · simp [utf8DecodeChar, h1, h2, h3] at h
        · by_cases h4 : isCont b1 = true
          · simp [utf8DecodeChar, h1, h2, h3, h4] at h
            obtain ⟨-, h5⟩ := h
            subst h5
            simp
          · simp [utf8DecodeChar, h1, h2, h3, h4] at h
      · by_cases h4 : b ≤ 239
        · rcases bs with _ | ⟨b1, _ | ⟨b2, bs2⟩⟩
          · simp [utf8DecodeChar, h1, h2, h3, h4] at h
          · simp [utf8DecodeChar, h1, h2, h3, h4] at h
          · by_cases h5 : (cont3ok b b1 && isCont b2) = true
            · simp [utf8DecodeChar, h1, h2, h3, h4, h5] at h
              obtain ⟨-, h6⟩ := h
              subst h6
              simp
            · simp [utf8DecodeChar, h1, h2, h3, h4, h5] at h
        · by_cases h5 : b ≤ 244
          · rcases bs with _ | ⟨b1, _ | ⟨b2, _ | ⟨b3, bs3⟩⟩⟩
            · simp [utf8DecodeChar, h1, h2, h3, h4, h5] at h
            · simp [utf8DecodeChar, h1, h2, h3, h4, h5] at h
            · simp [utf8DecodeChar, h1, h2, h3, h4, h5] at h
            · by_cases h6 : (cont4ok b b1 && isCont b2 && isCont b3) = true
              · simp [utf8DecodeChar, h1, h2, h3, h4, h5, h6] at h
                obtain ⟨-, h7⟩ := h
                subst h7
                simp
              · simp [utf8DecodeChar, h1, h2, h3, h4, h5, h6] at h
          · simp [utf8DecodeChar, h1, h2, h3, h4, h5] at h

lemma utf8DecodeLoop_length : ∀ (fuel : Nat) (bs cs : List Nat), bs.length ≤ fuel →
    utf8DecodeLoop fuel bs = some cs →
    cs.length ≤ bs.length ∧ (cs.length = bs.length ↔ ∀ b ∈ bs, b < 128) := by
  intro fuel
  induction fuel with
  | zero =>
    intro bs cs hle h
    have hnil : bs = [] := List.length_eq_zero.mp (by omega)
    subst hnil
    simp only [utf8DecodeLoop, Option.some.injEq] at h
    subst h
    simp
  | succ fuel ih =>
    intro bs cs hle h
    cases bs with
    | nil =>
      simp only [utf8DecodeLoop, Option.some.injEq] at h
      subst h
      simp
    | cons b bs =>
      simp only [utf8DecodeLoop] at h
      cases hstep : utf8DecodeChar (b :: bs) with
      | none => rw [hstep] at h; simp at h
      | some p =>
        obtain ⟨c, rest⟩ := p
        rw [hstep] at h
        simp only [Option.map_eq_some'] at h
        obtain ⟨a, ha, hcs⟩ := h
        subst hcs
        rcases utf8DecodeChar_cons b bs c rest hstep with ⟨hb, -, rfl⟩ | ⟨hb, hlen⟩
        · obtain ⟨hle2, hiff⟩ := ih rest a (by simp at hle; omega) ha
          refine ⟨by simp; omega, ?_⟩
          simp only [List.length_cons, List.forall_mem_cons]
          constructor
          · intro h1
            exact ⟨hb, hiff.mp (by omega)⟩
          · rintro ⟨-, h2⟩
            have := hiff.mpr h2
            omega
        · obtain ⟨hle2, -⟩ := ih rest a (by simp at hle; omega) ha
          refine ⟨by simp; omega, iff_of_false (by simp; omega) ?_⟩
          intro hall
          exact absurd (hall b (by simp)) (by omega)

lemma utf8Decode_length (bs cs : List Nat) (h : utf8Decode bs = some cs) :
    cs.length ≤ bs.length ∧ (cs.length = bs.length ↔ ∀ b ∈ bs, b < 128) :=
  utf8DecodeLoop_length bs.length bs cs le_rfl h

lemma streamLines_nil_iff (bs : List Nat) : streamLines bs = [] ↔ bs = [] := by
  cases bs with
  | nil => simp [streamLines]
  | cons b bs =>
    simp only [streamLines]
    split
    · simp
    · split <;> simp

lemma length_streamLines_cons_ne (b : Nat) (bs : List Nat) (hb : b ≠ 10)
    (hbs : bs ≠ []) :
    (streamLines (b :: bs)).length = (streamLines bs).length := by
  simp only [streamLines, if_neg hb]
  cases h : streamLines bs with
  | nil => exact absurd ((streamLines_nil_iff bs).mp h) hbs
  | cons l ls => simp

lemma length_streamLines (bs : List Nat) :
    (streamLines bs).length =
      bs.count 10 + (if bs ≠ [] ∧ bs.getLast? ≠ some 10 then 1 else 0) := by
  induction bs with
  | nil => simp [streamLines]
  | cons b bs ih =>
    cases bs with
    | nil =>
      by_cases hb : b = 10 <;>
        simp [streamLines, hb, List.count_cons, List.count_nil]
    | cons c cs =>
      by_cases hb : b = 10
      · subst hb
        have h1 : (streamLines (10 :: c :: cs)).length =
            (streamLines (c :: cs)).length + 1 := by
          simp [streamLines]
        rw [h1, ih]
        simp only [List.count_cons, List.getLast?_cons_cons]
        by_cases hl : (c :: cs).getLast? = some 10 <;> simp [hl]
      · rw [length_streamLines_cons_ne b (c :: cs) hb (by simp), ih]
        simp only [List.count_cons, List.getLast?_cons_cons]
        by_cases hl : (c :: cs).getLast? = some 10 <;> simp [hl, hb]

lemma countWordsAux_cons (c : Nat) (cs : List Nat) (s : Bool) :
    countWordsAux (c :: cs) s =
      if isRustWhitespace c = true then countWordsAux cs false
      else (if s = true then 0 else 1) + countWordsAux cs true := rfl

lemma countWordsAux_all_ws (r : List Nat) (hr : ∀ c ∈ r, isRustWhitespace c = true) :
    ∀ s, countWordsAux r s = 0 := by
  induction r with
  | nil => intro s; simp [countWordsAux]
  | cons c r ih =>
    intro s
    have hc : isRustWhitespace c = true := hr c (by simp)
    simp only [countWordsAux, hc, if_pos]
    exact ih (fun x hx => hr x (by simp [hx])) false

lemma countWordsAux_leading_ws (r : List Nat) (hr : ∀ c ∈ r, isRustWhitespace c = true)
    (hne : r ≠ []) : ∀ (cs : List Nat) (s : Bool),
    countWordsAux (r ++ cs) s = countWordsAux cs false := by
  induction r with
  | nil => exact absurd rfl hne
  | cons c r ih =>
    intro cs s
    have hc : isRustWhitespace c = true := hr c (by simp)
    simp only [List.cons_append, countWordsAux, hc, if_pos]
    cases r with
    | nil => simp
    | cons d r =>
      exact ih (fun x hx => hr x (by simp [hx])) (by simp) cs false

lemma countWordsAux_run_split (r : List Nat) (hr : ∀ c ∈ r, isRustWhitespace c = true)
    (hne : r ≠ []) : ∀ (xs ys : List Nat) (s : Bool),
    countWordsAux (xs ++ r ++ ys) s = countWordsAux xs s + countWordsAux ys false := by
  intro xs
  induction xs with
  | nil =>
    intro ys s
    rw [List.nil_append, countWordsAux_leading_ws r hr hne ys s]
    simp [countWordsAux]
  | cons c cs ih =>
    intro ys s
    simp only [List.cons_append]
    rw [countWordsAux_cons, countWordsAux_cons]
    by_cases hc : isRustWhitespace c = true
    · rw [if_pos hc, if_pos hc, ih]
    · rw [if_neg hc, if_neg hc, ih]
      exact (Nat.add_assoc _ _ _).symm

lemma countWordsAux_ws_suffix (r : List Nat) (hr : ∀ c ∈ r, isRustWhitespace c = true) :
    ∀ (xs : List Nat) (s : Bool), countWordsAux (xs ++ r) s = countWordsAux xs s := by
  intro xs
  induction xs with
  | nil =>
    intro s
    rw [List.nil_append, countWordsAux_all_ws r hr s]
    simp [countWordsAux]
  | cons c cs ih =>
    intro s
    by_cases hc : isRustWhitespace c = true <;>
      simp [countWordsAux, hc, ih]

lemma runFiles_eq (env : String → Except String (List Nat)) (config : Config) :
    ∀ (files : List String) (tl tw tb tc : Nat),
      runFiles env config files tl tw tb tc =
        { stdout := perSourceOut env config files
          stderr := perSourceErr env files
          total_lines := tl + (sumInfos (successInfos env files)).num_lines
          total_words := tw + (sumInfos (successInfos env files)).num_words
          total_bytes := tb + (sumInfos (successInfos env files)).num_bytes
          total_chars := tc + (sumInfos (successInfos env files)).num_chars } := by
  intro files
  induction files with
  | nil =>
    intro tl tw tb tc
    simp [runFiles, perSourceOut, perSourceErr, successInfos, sumInfos]
  | cons f rest ih =>
    intro tl tw tb tc
    simp only [runFiles]
    cases henv : env f with
    | error err =>
      have hsr : sourceResult env f = .error err := by simp [sourceResult, henv]
      simp [ih, perSourceOut, perSourceErr, successInfos, sumInfos,
        List.filterMap_cons, hsr, Except.toOption]
    | ok stream =>
      have hsr : sourceResult env f = count stream := by simp [sourceResult, henv]
      cases hc : count stream with
      | error e2 =>
        simp [ih, perSourceOut, perSourceErr, successInfos, sumInfos,
          List.filterMap_cons, hsr, hc, Except.toOption]
      | ok file_info =>
        simp [ih, perSourceOut, perSourceErr, successInfos, sumInfos,
          List.filterMap_cons, hsr, hc, Except.toOption]
        omega

lemma count_ok_elim (stream : List Nat) (file_info : FileInfo)
    (h : count stream = .ok file_info) :
    ∃ chars, utf8Decode stream = some chars ∧
      file_info =
        ⟨(streamLines stream).length, countWords chars, stream.length, chars.length⟩ := by
  unfold count at h
  cases hd : utf8Decode stream with
  | none =>
    rw [hd] at h
    exact absurd h (by simp)
  | some chars =>
    rw [hd] at h
    simp only [Except.ok.injEq] at h
    exact ⟨chars, rfl, h.symm⟩

lemma run_eq (env : String → Except String (List Nat)) (config : Config) :
    run env config =
      (perSourceOut env config config.files ++
        (if config.files.length > 1 then
          [totalLine config
            (sumInfos (successInfos env config.files)).num_lines
            (sumInfos (successInfos env config.files)).num_words
            (sumInfos (successInfos env config.files)).num_bytes
            (sumInfos (successInfos env config.files)).num_chars]
        else []),
        perSourceErr env config.files) := by
  unfold run
  rw [runFiles_eq]
  simp

/-- A concrete opener environment for witnesses: `a` is a two-letter file
with a terminated line, `bad` holds one invalid byte, `b` holds a lone
carriage return, everything else fails to open. -/
def envW : String → Except String (List Nat) := fun s =>
  if s = "a" then .ok [104, 105, 10]
  else if s = "bad" then .ok [255]
  else if s = "b" then .ok [13]
  else .error "No such file or directory (os error 2)"

/-- A concrete multi-source configuration for witnesses. -/
def configW : Config :=
  { files := ["a", "nope", "bad", "b"]
    lines := true, words := true, bytes := true, chars := false }

/-- A concrete single-source configuration for witnesses. -/
def configW1 : Config :=
  { files := ["a"], lines := true, words := true, bytes := true, chars := false }

/-- C1 (counterexample): on the stream `a\r b` with no whitespace around the
carriage return (bytes `[97, 13, 98]`), the engine counts TWO words, not the
one word the claim asserts (the claim would force the Measurement
`⟨1, 1, 3, 3⟩`). -/
theorem cr_word_separator_counterexample :
    count [97, 13, 98] = .ok ⟨1, 2, 3, 3⟩ ∧ count [97, 13, 98] ≠ .ok ⟨1, 1, 3, 3⟩ := by
  refine ⟨rfl, ?_⟩
  intro h
  rw [show count [97, 13, 98] = Except.ok (⟨1, 2, 3, 3⟩ : FileInfo) from rfl] at h
  simp at h

/-- C1 (amended): a carriage return IS itself a word separator, because the
host whitespace definition (Rust `char::is_whitespace`) contains U+000D:
splitting any character content at a `\r` splits the word count, so
`a\r b` counts as exactly two words, while the `\r` still counts toward
`num_bytes` and `num_chars` (the Measurement of `[97, 13, 98]` is
`⟨1, 2, 3, 3⟩`). -/
theorem cr_separates_words (cs ds : List Nat) :
    countWords (cs ++ 13 :: ds) = countWords cs + countWords ds ∧
    count [97, 13, 98] = .ok ⟨1, 2, 3, 3⟩ := by
  constructor
  · have h := countWordsAux_run_split [13] (by decide) (by simp) cs ds false
    simpa [countWords] using h
  · rfl

/-- C2: whenever the counting engine succeeds, `num_chars ≤ num_bytes`,
with equality exactly when the content consists only of single-byte
characters (every byte below 128). -/
theorem numChars_le_numBytes (stream : List Nat) (file_info : FileInfo)
    (h : count stream = .ok file_info) :
    file_info.num_chars ≤ file_info.num_bytes ∧
    (file_info.num_chars = file_info.num_bytes ↔ ∀ b ∈ stream, b < 128) := by
  obtain ⟨chars, hd, rfl⟩ := count_ok_elim stream file_info h
  simpa using utf8Decode_length stream chars hd

/-- C2 witness: the stream `hé` (bytes `[104, 195, 169]`) has 2 characters
in 3 bytes, and indeed not all of its bytes are below 128. -/
theorem numChars_le_numBytes_witness :
    (FileInfo.mk 1 1 3 2).num_chars ≤ (FileInfo.mk 1 1 3 2).num_bytes ∧
    ((FileInfo.mk 1 1 3 2).num_chars = (FileInfo.mk 1 1 3 2).num_bytes ↔
      ∀ b ∈ [104, 195, 169], b < 128) :=
  numChars_le_numBytes [104, 195, 169] ⟨1, 1, 3, 2⟩ rfl

/-- C3: in a multi-source run the total line printed last on stdout is
formatted from the field-wise sums of the Measurements of exactly the
successfully processed sources (failed sources contribute nothing). -/
theorem total_fields_are_sums (env : String → Except String (List Nat))
    (config : Config) (h : config.files.length > 1) :
    (run env config).1.getLast? =
      some (totalLine config
        (sumInfos (successInfos env config.files)).num_lines
        (sumInfos (successInfos env config.files)).num_words
        (sumInfos (successInfos env config.files)).num_bytes
        (sumInfos (successInfos env config.files)).num_chars) := by
  rw [run_eq]
  simp [h]

/-- C3 witness: running over `a` (Measurement `⟨1,1,3,3⟩`), a missing file,
an invalid-UTF-8 file, and `b` (Measurement `⟨1,0,1,1⟩`) prints the total
line of the sums `2 1 4 4`. -/
theorem total_fields_are_sums_witness :
    (run envW configW).1.getLast? = some (totalLine configW 2 1 4 4) := by
  rw [total_fields_are_sums envW configW (by decide)]
  rfl

/-- C4: a single-source run prints exactly the per-source output lines and
no total line; a run over more than one source prints the per-source lines
followed by exactly one total line, however many sources failed. -/
theorem total_line_exactly_when_multi (env : String → Except String (List Nat))
    (config : Config) :
    (config.files.length = 1 →
      (run env config).1 = perSourceOut env config config.files) ∧
    (config.files.length > 1 →
      (run env config).1 =
        perSourceOut env config config.files ++
          [totalLine config
            (sumInfos (successInfos env config.files)).num_lines
            (sumInfos (successInfos env config.files)).num_words
            (sumInfos (successInfos env config.files)).num_bytes
            (sumInfos (successInfos env config.files)).num_chars]) := by
  constructor
  · intro h
    rw [run_eq]
    simp [h]
  · intro h
    rw [run_eq]
    simp [h]

/-- C4 witness: the single-source run over `a` prints no total line; the
four-source run (two of which fail) prints exactly one. -/
theorem total_line_exactly_when_multi_witness :
    (run envW configW1).1 = perSourceOut envW configW1 configW1.files ∧
    (run envW configW).1 =
      perSourceOut envW configW configW.files ++ [totalLine configW 2 1 4 4] := by
  constructor
  · exact (total_line_exactly_when_multi envW configW1).1 (by decide)
  · rw [(total_line_exactly_when_multi envW configW).2 (by decide)]
    rfl

/-- C5: on a stream that is not valid character data the engine returns an
error, not a Measurement; in a run this failure only adds the per-source
diagnostic line to stderr, while stdout still carries the lines of the
sources before and after it (processing continues). -/
theorem decoding_failure_recovered (env : String → Except String (List Nat))
    (config : Config) (pre post : List String) (f : String) (bs : List Nat)
    (hfiles : config.files = pre ++ f :: post) (henv : env f = .ok bs)
    (hbad : utf8Decode bs = none) :
    count bs = .error "stream did not contain valid UTF-8" ∧
    (run env config).2 =
      perSourceErr env pre ++
        (f ++ ": " ++ "stream did not contain valid UTF-8") :: perSourceErr env post ∧
    (run env config).1 =
      perSourceOut env config pre ++ perSourceOut env config post ++
        (if config.files.length > 1 then
          [totalLine config
            (sumInfos (successInfos env config.files)).num_lines
            (sumInfos (successInfos env config.files)).num_words
            (sumInfos (successInfos env config.files)).num_bytes
            (sumInfos (successInfos env config.files)).num_chars]
        else []) := by
  have hcount : count bs = .error "stream did not contain valid UTF-8" := by
    unfold count
    rw [hbad]
  have hsr : sourceResult env f = .error "stream did not contain valid UTF-8" := by
    simp [sourceResult, henv, hcount]
  refine ⟨hcount, ?_, ?_⟩
  · rw [run_eq]
    simp only [hfiles, perSourceErr, List.filterMap_append, List.filterMap_cons, hsr]
  · rw [run_eq]
    simp only [hfiles, perSourceOut, List.filterMap_append, List.filterMap_cons, hsr]
    simp [Except.toOption]

/-- C5 witness: the file `bad` holds the invalid byte `0xFF`; its failure is
reported between the diagnostics of the sources around it and the other
sources are still counted and printed. -/
theorem decoding_failure_recovered_witness :
    count [255] = .error "stream did not contain valid UTF-8" ∧
    (run envW configW).2 =
      perSourceErr envW ["a", "nope"] ++
        ("bad" ++ ": " ++ "stream did not contain valid UTF-8") :: perSourceErr envW ["b"] ∧
    (run envW configW).1 =
      perSourceOut envW configW ["a", "nope"] ++ perSourceOut envW configW ["b"] ++
        (if configW.files.length > 1 then
          [totalLine configW
            (sumInfos (successInfos envW configW.files)).num_lines
            (sumInfos (successInfos envW configW.files)).num_words
            (sumInfos (successInfos envW configW.files)).num_bytes
            (sumInfos (successInfos envW configW.files)).num_chars]
        else []) :=
  decoding_failure_recovered envW configW ["a", "nope"] ["b"] "bad" [255] rfl rfl rfl

/-- C6: for a non-empty stream whose last byte is not a line feed, the
engine counts one more line than there are line feeds: the final
unterminated line is counted. -/
theorem final_partial_line_counted (stream : List Nat) (file_info : FileInfo)
    (h : count stream = .ok file_info) (hne : stream ≠ [])
    (hlast : stream.getLast? ≠ some 10) :
    file_info.num_lines = stream.count 10 + 1 := by
  obtain ⟨chars, -, rfl⟩ := count_ok_elim stream file_info h
  have hl := length_streamLines stream
  rw [if_pos ⟨hne, hlast⟩] at hl
  exact hl

/-- C6 witness: the unterminated stream `a\r b` has no line feed yet counts
one line. -/
theorem final_partial_line_counted_witness :
    (FileInfo.mk 1 2 3 3).num_lines = ([97, 13, 98] : List Nat).count 10 + 1 :=
  final_partial_line_counted [97, 13, 98] ⟨1, 2, 3, 3⟩ rfl (by decide) (by decide)

/-- C7: the word count only depends on the token structure: replacing a
single whitespace separator by any non-empty run of whitespace leaves it
unchanged, a leading or trailing whitespace run contributes nothing, and
all-whitespace content holds zero words (no empty tokens). -/
theorem numWords_whitespace_invariant (xs ys r : List Nat) (w : Nat)
    (hw : isRustWhitespace w = true) (hr : ∀ c ∈ r, isRustWhitespace c = true)
    (hne : r ≠ []) :
    countWords (xs ++ w :: ys) = countWords (xs ++ r ++ ys) ∧
    countWords (r ++ ys) = countWords ys ∧
    countWords (xs ++ r) = countWords xs ∧
    countWords r = 0 := by
  refine ⟨?_, ?_, ?_, ?_⟩
  · have h1 := countWordsAux_run_split [w] (by simp [hw]) (by simp) xs ys false
    have h2 := countWordsAux_run_split r hr hne xs ys false
    unfold countWords
    rw [show xs ++ w :: ys = xs ++ [w] ++ ys from by simp, h1, h2]
  · unfold countWords
    rw [countWordsAux_leading_ws r hr hne ys false]
  · unfold countWords
    rw [countWordsAux_ws_suffix r hr xs false]
  · unfold countWords
    rw [countWordsAux_all_ws r hr false]

/-- C7 witness: `a b` with one space, two spaces, or surrounding spaces all
count one word per token; two spaces alone count zero words. -/
theorem numWords_whitespace_invariant_witness :
    countWords ([97] ++ 32 :: [98]) = countWords ([97] ++ [32, 32] ++ [98]) ∧
    countWords ([32, 32] ++ [98]) = countWords [98] ∧
    countWords ([97] ++ [32, 32]) = countWords [97] ∧
    countWords [32, 32] = 0 :=
  numWords_whitespace_invariant [97] [98] [32, 32] 32 (by decide) (by decide) (by decide)

/-- C8: if no show-flag was requested, the parsed configuration shows
lines, words and bytes; the chars flag is exactly the requested one and is
never auto-enabled. -/
theorem default_flag_triad (files : List String) (l w b c : Bool) :
    ((l = false ∧ w = false ∧ b = false ∧ c = false) →
      (get_args files l w b c).lines = true ∧
      (get_args files l w b c).words = true ∧
      (get_args files l w b c).bytes = true) ∧
    (get_args files l w b c).chars = c := by
  cases l <;> cases w <;> cases b <;> cases c <;> simp [get_args]

/-- C8 witness: with no flags requested the default configuration shows
lines, words and bytes but not chars. -/
theorem default_flag_triad_witness :
    (get_args ["-"] false false false false).lines = true ∧
    (get_args ["-"] false false false false).words = true ∧
    (get_args ["-"] false false false false).bytes = true ∧
    (get_args ["-"] false false false false).chars = false := by
  obtain ⟨h1, h2⟩ := default_flag_triad ["-"] false false false false
  obtain ⟨ha, hb, hc⟩ := h1 ⟨rfl, rfl, rfl, rfl⟩
  exact ⟨ha, hb, hc, h2⟩

/-- C9: the empty stream yields the all-zero Measurement. -/
theorem empty_stream_zero : count [] = .ok ⟨0, 0, 0, 0⟩ := rfl

/-- C10: whenever the engine succeeds, `num_lines` is the number of line
feeds plus one when the stream is non-empty and does not end in a line
feed; in particular the lone blank line `\n` counts one line and zero
words. -/
theorem num_lines_newline_formula (stream : List Nat) (file_info : FileInfo)
    (h : count stream = .ok file_info) :
    file_info.num_lines =
      stream.count 10 + (if stream ≠ [] ∧ stream.getLast? ≠ some 10 then 1 else 0) ∧
    count [10] = .ok ⟨1, 0, 1, 1⟩ := by
  obtain ⟨chars, -, rfl⟩ := count_ok_elim stream file_info h
  exact ⟨length_streamLines stream, rfl⟩

/-- C10 witness: the formula applied to the lone line feed stream. -/
theorem num_lines_newline_formula_witness :
    (FileInfo.mk 1 0 1 1).num_lines =
      ([10] : List Nat).count 10 +
        (if ([10] : List Nat) ≠ [] ∧ ([10] : List Nat).getLast? ≠ some 10 then 1 else 0) ∧
    count [10] = .ok ⟨1, 0, 1, 1⟩ :=
  num_lines_newline_formula [10] ⟨1, 0, 1, 1⟩ rfl

end Wcr
